import Mathlib

/-!
Verification of the response-interpretation and modifier layers of the
huelib bridge client.

The embedding follows the two source files of the repository:
src/lib.rs (modifier traits, Scan deserialization) and src/bridge.rs
(parse_response and the per-resource client operations).  Modules that
the crate declares but whose files are absent (response.rs, light.rs,
error.rs, ...) are modelled from the specification; each such definition
carries a doc comment starting with: Modelled from the spec.
-/

set_option autoImplicit false

namespace Huelib

/-- A JSON value, as produced by the transport layer (serde_json::Value).
Numbers are modelled as integers: every operation in scope stores,
negates or compares numeric payloads and never performs non-integral
arithmetic. -/
inductive Json where
  | null : Json
  | bool (b : Bool) : Json
  | num (n : Int) : Json
  | str (s : String) : Json
  | arr (xs : List Json) : Json
  | obj (fields : List (String × Json)) : Json

/-- Modelled from the spec: the data carried by a bridge-reported error
entry (module response is absent from src).  Per section 6, an error
value is an object with fields type, address and description. -/
structure RespError where
  type : Int
  address : String
  description : String
deriving DecidableEq

/-- Modelled from the spec: one decoded bulk-response entry (Outcome),
either a success payload or a bridge-reported failure (module response
is absent from src). -/
inductive Response (T : Type) where
  | success (v : T) : Response T
  | error (e : RespError) : Response T

/-- Modelled from the spec: Response::into_result turns one entry into a
terminal result, success payload on success, failure data on failure
(module response is absent from src). -/
def Response.into_result {T : Type} : Response T → Except RespError T
  | .success v => .ok v
  | .error e => .error e

/-- Modelled from the spec: the error kinds of the crate (module error is
absent from src).  The constructors mirror the variants bridge.rs uses:
Error::Response, Error::ParseJson, Error::GetCreatedId,
Error::GetUsername. -/
inductive HError where
  | response (e : RespError) : HError
  | parseJson : HError
  | getCreatedId : HError
  | getUsername : HError
deriving DecidableEq

/-- Looks a key up in the field list of a JSON object (first match). -/
def jlookup (key : String) : List (String × Json) → Option Json
  | [] => none
  | (k, v) :: rest => if k = key then some v else jlookup key rest

/-- Modelled from the spec: decoding the error value of a bulk entry,
an object holding type, address and description. -/
def decodeRespError (j : Json) : Option RespError :=
  match j with
  | .obj fields =>
    match jlookup "type" fields, jlookup "address" fields,
        jlookup "description" fields with
    | some (.num t), some (.str a), some (.str d) => some ⟨t, a, d⟩
    | _, _, _ => none
  | _ => none

/-- Modelled from the spec: decoding one bulk entry, a single-key object
keyed success or error (section 6). -/
def decodeResponse {T : Type} (dec : Json → Option T) (j : Json) :
    Option (Response T) :=
  match j with
  | .obj [("success", v)] => (dec v).map .success
  | .obj [("error", e)] => (decodeRespError e).map .error
  | _ => none

/-- Decoding a raw JSON value as Vec of Response of serde_json::Value:
the wrapped bulk form attempted first by parse_response
(bridge.rs line 129). -/
def decodeResponses (j : Json) : Option (List (Response Json)) :=
  match j with
  | .arr xs => xs.mapM (decodeResponse some)
  | _ => none

/-- parse_response (bridge.rs lines 128-136): try the wrapped bulk form;
when it decodes, pop the LAST entry and propagate its failure, if any;
in every other case decode the raw value directly as the target type,
surfacing a parse error on mismatch. -/
def parse_response {T : Type} (dec : Json → Option T) (j : Json) :
    Except HError T :=
  match decodeResponses j with
  | some rs =>
    match rs.getLast? with
    | some r =>
      match r.into_result with
      | .error e => .error (.response e)
      | .ok _ =>
        match dec j with
        | some t => .ok t
        | none => .error .parseJson
    | none =>
      match dec j with
      | some t => .ok t
      | none => .error .parseJson
  | none =>
    match dec j with
    | some t => .ok t
    | none => .error .parseJson

/-- The loop reduction used by Bridge::delete_light and the other delete
and search operations (bridge.rs lines 270-277): call into_result on
every decoded entry in response order, propagating the first failure. -/
def deleteLoop (rs : List (Response Json)) : Except HError Unit :=
  match rs with
  | [] => .ok ()
  | r :: rest =>
    match r.into_result with
    | .error e => .error (.response e)
    | .ok _ => deleteLoop rest

/-- The first failure data occurring in a decoded entry sequence. -/
def firstFailure {T : Type} (rs : List (Response T)) : Option RespError :=
  rs.findSome? (fun r =>
    match r with
    | .error e => some e
    | .success _ => none)

/-- A sample bulk entry carrying a bridge failure. -/
def sampleErrEntry : Json :=
  Json.obj [("error", Json.obj
    [("type", Json.num 3), ("address", Json.str "/lights/5"),
     ("description", Json.str "resource not available")])]

/-- A sample bulk entry carrying a success payload. -/
def sampleOkEntry : Json :=
  Json.obj [("success", Json.obj [("/lights/1/state/bri", Json.num 200)])]

/-- C1 counterexample: the response array whose decoded entry sequence is
Failure then Success is reduced by parse_response to a success, because
parse_response inspects only the popped last entry; the first Failure is
not returned, contradicting the claim for this reduction. -/
theorem c1_parse_response_counterexample :
    decodeResponses (Json.arr [sampleErrEntry, sampleOkEntry]) =
      some [Response.error ⟨3, "/lights/5", "resource not available"⟩,
        Response.success (Json.obj [("/lights/1/state/bri", Json.num 200)])]
    ∧ parse_response some (Json.arr [sampleErrEntry, sampleOkEntry]) =
      Except.ok (Json.arr [sampleErrEntry, sampleOkEntry]) := by
  exact ⟨rfl, rfl⟩

/-- C1 (amended): the loop reduction used by Bridge::delete_light and its
siblings returns the data of the first Failure in response order when one
is present anywhere, and succeeds when none is; parse_response, by
contrast, examines only the last decoded entry (see the counterexample). -/
theorem c1_delete_loop_first_failure (rs : List (Response Json)) :
    deleteLoop rs = (match firstFailure rs with
      | some e => Except.error (HError.response e)
      | none => Except.ok ()) := by
  induction rs with
  | nil => rfl
  | cons r rest ih =>
    cases r with
    | success v => simpa [deleteLoop, firstFailure, Response.into_result] using ih
    | error e => simp [deleteLoop, firstFailure, Response.into_result]

/-- C2: whenever the wrapped bulk decoding fails structurally,
parse_response decodes the raw value directly as the target type and
returns that result; a structural mismatch of the direct decode surfaces
as a parse error, never a silent default. -/
theorem c2_parse_response_fallback {T : Type} (dec : Json → Option T)
    (j : Json) (h : decodeResponses j = none) :
    parse_response dec j = (match dec j with
      | some t => Except.ok t
      | none => Except.error HError.parseJson) := by
  unfold parse_response
  rw [h]

/-- C2 witness: a plain object is not the wrapped bulk form, and
parse_response falls back to the direct decode of the raw value. -/
theorem c2_parse_response_fallback_witness :
    decodeResponses (Json.obj []) = none ∧
    parse_response some (Json.obj []) = Except.ok (Json.obj []) :=
  ⟨rfl, c2_parse_response_fallback some (Json.obj []) rfl⟩

/-- Looks a key up in a decoded string-to-string map (HashMap::get,
modelled on the association list of entries, first match). -/
def slookup (key : String) : List (String × String) → Option String
  | [] => none
  | (k, v) :: rest => if k = key then some v else slookup key rest

/-- Bridge::create_group (bridge.rs lines 280-290), applied to the decoded
response list: pop the last entry, propagate its failure, read the id
field of the success payload, and fail with Error::GetCreatedId when the
list is empty or the payload lacks an id.  create_scene, create_schedule,
create_resourcelink and create_rule repeat this body verbatim. -/
def create_group (rs : List (Response (List (String × String)))) :
    Except HError String :=
  match rs.getLast? with
  | none => .error .getCreatedId
  | some r =>
    match r.into_result with
    | .error e => .error (.response e)
    | .ok m =>
      match slookup "id" m with
      | some v => .ok v
      | none => .error .getCreatedId

/-- C5: when the popped success payload of a creation endpoint lacks an
id field the operation fails with the distinct missing-identifier error
kind Error::GetCreatedId, not a parse error; when the id field is present
the operation returns its value. -/
theorem c5_create_id_handling (rs : List (Response (List (String × String))))
    (m : List (String × String))
    (h : rs.getLast? = some (Response.success m)) :
    create_group rs = (match slookup "id" m with
      | some v => Except.ok v
      | none => Except.error HError.getCreatedId) := by
  unfold create_group
  rw [h]
  rfl

/-- C5 witness: a success payload without id yields GetCreatedId, one
with id yields the identifier. -/
theorem c5_create_id_handling_witness :
    create_group [Response.success [("name", "g")]] =
      Except.error HError.getCreatedId
    ∧ create_group [Response.success [("id", "7")]] = Except.ok "7" :=
  ⟨c5_create_id_handling _ [("name", "g")] rfl,
   c5_create_id_handling _ [("id", "7")] rfl⟩

/-- A light resource.  Modelled from the spec: the schema structs are flat
data (module light absent from src); the body carries a name but no
identifier, since for this resource the id is a map key, not a body
field. -/
structure Light where
  id : String
  name : String
deriving DecidableEq

/-- Modelled from the spec: Light::with_id injects the out-of-band
identifier into the domain object (module light absent from src). -/
def Light.with_id (l : Light) (id : String) : Light := { l with id := id }

/-- Modelled from the spec: decoding a light resource body; the
identifier field of the struct is left empty by decoding and is filled by
with_id afterwards. -/
def decodeLight (j : Json) : Option Light :=
  match j with
  | .obj fields =>
    match jlookup "name" fields with
    | some (.str n) => some ⟨"", n⟩
    | _ => none
  | _ => none

/-- Bridge::get_light (bridge.rs lines 221-226), applied to the raw JSON
the transport returned: parse, then inject the caller-supplied id. -/
def get_light (j : Json) (id : String) : Except HError Light :=
  (parse_response decodeLight j).map (fun l => l.with_id id)

/-- C10: a successful get_light returns a domain object whose identifier
equals the id argument supplied by the caller, independent of the
response body.  get_group, get_scene, get_schedule, get_resourcelink,
get_sensor and get_rule repeat this body verbatim. -/
theorem c10_get_light_id (j : Json) (id : String) (l : Light)
    (h : get_light j id = Except.ok l) : l.id = id := by
  unfold get_light at h
  cases hp : parse_response decodeLight j with
  | ok l0 =>
    rw [hp] at h
    simp only [Except.map] at h
    cases h
    rfl
  | error e =>
    rw [hp] at h
    simp [Except.map] at h

/-- C10 witness: get_light on a concrete body returns the caller id. -/
theorem c10_get_light_id_witness :
    get_light (Json.obj [("name", Json.str "lamp")]) "7" =
      Except.ok (Light.mk "7" "lamp")
    ∧ (Light.mk "7" "lamp").id = "7" :=
  ⟨rfl, c10_get_light_id (Json.obj [("name", Json.str "lamp")]) "7" _ rfl⟩

/-- Decoding a get-all collection response: an object whose keys are
string identifiers and whose values are resource bodies
(HashMap of String to Light in bridge.rs line 230, modelled on the entry
list). -/
def decodeLightMap (j : Json) : Option (List (String × Light)) :=
  match j with
  | .obj fields =>
    fields.mapM (fun p => (decodeLight p.2).map (fun l => (p.1, l)))
  | _ => none

/-- Bridge::get_all_lights (bridge.rs lines 229-237): decode the
identifier-to-body map, then push with_id id for every entry. -/
def get_all_lights (j : Json) : Except HError (List Light) :=
  (parse_response decodeLightMap j).map
    (fun m => m.map (fun p => p.2.with_id p.1))

/-- C6: decoding a get-all collection response followed by identifier
injection yields one domain object per map entry, and each object's
identifier equals the corresponding map key, not anything found in the
body. -/
theorem c6_get_all_ids (j : Json) (m : List (String × Light))
    (h : parse_response decodeLightMap j = Except.ok m) :
    get_all_lights j = Except.ok (m.map (fun p => p.2.with_id p.1))
    ∧ (m.map (fun p => p.2.with_id p.1)).map Light.id = m.map Prod.fst
    ∧ (m.map (fun p => p.2.with_id p.1)).length = m.length := by
  refine ⟨?_, ?_, ?_⟩
  · unfold get_all_lights
    rw [h]
    rfl
  · simp [Light.with_id]
  · simp

/-- C6 witness: a two-entry collection yields two objects whose ids are
the two map keys. -/
theorem c6_get_all_ids_witness :
    get_all_lights (Json.obj
        [("1", Json.obj [("name", Json.str "a")]),
         ("2", Json.obj [("name", Json.str "b")])]) =
      Except.ok [Light.mk "1" "a", Light.mk "2" "b"]
    ∧ [Light.mk "1" "a", Light.mk "2" "b"].map Light.id = ["1", "2"] := by
  have h := c6_get_all_ids (Json.obj
      [("1", Json.obj [("name", Json.str "a")]),
       ("2", Json.obj [("name", Json.str "b")])])
    [("1", Light.mk "" "a"), ("2", Light.mk "" "b")] rfl
  exact ⟨h.1, h.2.1⟩

/-- Type of a modifier (lib.rs lines 279-287). -/
inductive ModifierType where
  | override : ModifierType
  | increment : ModifierType
  | decrement : ModifierType
deriving DecidableEq

/-- Type of a modifier for coordinates (lib.rs lines 290-306). -/
inductive CoordinateModifierType where
  | override : CoordinateModifierType
  | increment : CoordinateModifierType
  | decrement : CoordinateModifierType
  | incrementDecrement : CoordinateModifierType
  | decrementIncrement : CoordinateModifierType
deriving DecidableEq

/-- Modelled from the spec: light::StateModifier, the accumulator of
pending field operations (module light absent from src).  Each single
field holds the last operation set on it; the paired color-space
coordinates are stored atomically as one entry. -/
structure StateModifier where
  switchedOn : Option Bool
  brightness : Option (ModifierType × Int)
  hue : Option (ModifierType × Int)
  saturation : Option (ModifierType × Int)
  colorSpaceCoordinates : Option (CoordinateModifierType × Int × Int)
deriving DecidableEq

/-- The Default value of a StateModifier: no field set. -/
def StateModifier.default : StateModifier := ⟨none, none, none, none, none⟩

/-- Modifier::new (lib.rs line 311): Default::default(). -/
def StateModifier.new : StateModifier := StateModifier.default

/-- Modifier::is_empty (lib.rs lines 316-318): equality with the default
value. -/
def StateModifier.is_empty (m : StateModifier) : Bool :=
  decide (m = StateModifier.default)

/-- The fields a builder call can touch; the paired coordinates count as
one field. -/
inductive FieldName where
  | switchedOn : FieldName
  | bri : FieldName
  | hue : FieldName
  | sat : FieldName
  | xy : FieldName
deriving DecidableEq

/-- Modelled from the spec: one chained builder call on a StateModifier
(module light absent from src). -/
inductive BuilderCall where
  | switchedOn (b : Bool) : BuilderCall
  | brightness (t : ModifierType) (v : Int) : BuilderCall
  | hue (t : ModifierType) (v : Int) : BuilderCall
  | saturation (t : ModifierType) (v : Int) : BuilderCall
  | coordinates (t : CoordinateModifierType) (x y : Int) : BuilderCall

/-- The field a builder call touches. -/
def BuilderCall.target : BuilderCall → FieldName
  | .switchedOn _ => .switchedOn
  | .brightness _ _ => .bri
  | .hue _ _ => .hue
  | .saturation _ _ => .sat
  | .coordinates _ _ _ => .xy

/-- Modelled from the spec: applying one builder call replaces the
pending operation of its field with the new one. -/
def applyCall (m : StateModifier) : BuilderCall → StateModifier
  | .switchedOn b => { m with switchedOn := some b }
  | .brightness t v => { m with brightness := some (t, v) }
  | .hue t v => { m with hue := some (t, v) }
  | .saturation t v => { m with saturation := some (t, v) }
  | .coordinates t x y => { m with colorSpaceCoordinates := some (t, x, y) }

/-- Applying a sequence of chained builder calls in order. -/
def applyCalls (m : StateModifier) (cs : List BuilderCall) : StateModifier :=
  cs.foldl applyCall m

/-- Modelled from the spec: serializing a single numeric field; Override
emits the plain wire name with the value, Increment and Decrement emit
the bridge's increment wire name with a signed delta, negative for
Decrement. -/
def serializeField (wire wireInc : String) :
    Option (ModifierType × Int) → List (String × Json)
  | none => []
  | some (.override, v) => [(wire, Json.num v)]
  | some (.increment, v) => [(wireInc, Json.num v)]
  | some (.decrement, v) => [(wireInc, Json.num (-v))]

/-- Modelled from the spec: serializing the paired color-space
coordinates; both components are emitted together as one 2-element array
value (section 6), with signs encoding the per-component operation. -/
def serializeCoords :
    Option (CoordinateModifierType × Int × Int) → List (String × Json)
  | none => []
  | some (.override, x, y) => [("xy", Json.arr [Json.num x, Json.num y])]
  | some (.increment, x, y) =>
    [("xy_inc", Json.arr [Json.num x, Json.num y])]
  | some (.decrement, x, y) =>
    [("xy_inc", Json.arr [Json.num (-x), Json.num (-y)])]
  | some (.incrementDecrement, x, y) =>
    [("xy_inc", Json.arr [Json.num x, Json.num (-y)])]
  | some (.decrementIncrement, x, y) =>
    [("xy_inc", Json.arr [Json.num (-x), Json.num y])]

/-- Modelled from the spec: serializing the on field. -/
def serializeOn : Option Bool → List (String × Json)
  | none => []
  | some b => [("on", Json.bool b)]

/-- Modelled from the spec: serde serialization of a StateModifier, the
entry list of the produced JSON object; untouched fields are skipped. -/
def StateModifier.serialize (m : StateModifier) : List (String × Json) :=
  serializeOn m.switchedOn
  ++ serializeField "bri" "bri_inc" m.brightness
  ++ serializeField "hue" "hue_inc" m.hue
  ++ serializeField "sat" "sat_inc" m.saturation
  ++ serializeCoords m.colorSpaceCoordinates

/-- HTTP request kinds of the transport (RequestType, bridge.rs
lines 121-126, with the body carried separately here). -/
inductive Method where
  | get : Method
  | put : Method
  | post : Method
  | delete : Method
deriving DecidableEq

/-- One HTTP request handed to the transport by api_request. -/
structure Request where
  method : Method
  path : String
  body : Json

/-- Bridge::set_light_state (bridge.rs lines 209-218), viewed as the list
of requests it hands to the transport: unconditionally exactly one PUT to
lights/id/state carrying the serialized modifier; the source contains no
emptiness check. -/
def set_light_state (id : String) (m : StateModifier) : List Request :=
  [⟨Method.put, "lights/" ++ id ++ "/state", Json.obj m.serialize⟩]

/-- C3 counterexample: the empty modifier is is_empty, yet
set_light_state still issues its one network request instead of skipping
the call. -/
theorem c3_no_skip_counterexample :
    StateModifier.is_empty StateModifier.default = true
    ∧ (set_light_state "1" StateModifier.default).length = 1 :=
  ⟨by decide, rfl⟩

/-- C3 (amended): a modifier on which no fields were set serializes to an
empty JSON object, but set_light_state does not treat it as a no-op: it
issues the PUT unconditionally, with the empty object as body. -/
theorem c3_empty_modifier_serialization (id : String) (m : StateModifier)
    (h : m.is_empty = true) :
    m.serialize = []
    ∧ set_light_state id m =
      [⟨Method.put, "lights/" ++ id ++ "/state", Json.obj []⟩] := by
  have hm : m = StateModifier.default := of_decide_eq_true h
  subst hm
  exact ⟨rfl, rfl⟩

/-- C3 witness: the default modifier is empty, serializes to the empty
object and still produces one request. -/
theorem c3_empty_modifier_serialization_witness :
    StateModifier.serialize StateModifier.default = []
    ∧ set_light_state "1" StateModifier.default =
      [⟨Method.put, "lights/" ++ "1" ++ "/state", Json.obj []⟩] :=
  ⟨(c3_empty_modifier_serialization "1" StateModifier.default (by decide)).1,
   (c3_empty_modifier_serialization "1" StateModifier.default (by decide)).2⟩

/-- Whether any field of the modifier has been set. -/
def touched (m : StateModifier) : Bool :=
  m.switchedOn.isSome || m.brightness.isSome || m.hue.isSome
    || m.saturation.isSome || m.colorSpaceCoordinates.isSome

theorem touched_applyCall (m : StateModifier) (c : BuilderCall) :
    touched (applyCall m c) = true := by
  cases c <;> simp [applyCall, touched]

theorem touched_applyCalls (cs : List BuilderCall) (m : StateModifier)
    (h : touched m = true) : touched (applyCalls m cs) = true := by
  induction cs generalizing m with
  | nil => exact h
  | cons c rest ih => exact ih (applyCall m c) (touched_applyCall m c)

theorem touched_ne_default (m : StateModifier) (h : touched m = true) :
    m ≠ StateModifier.default := by
  intro he
  subst he
  simp [touched, StateModifier.default] at h

/-- C4: a freshly constructed modifier is empty, and applying any
non-empty sequence of builder calls makes is_empty false; is_empty is
true exactly when zero builder calls were made. -/
theorem c4_is_empty_iff_no_calls (cs : List BuilderCall) :
    (applyCalls StateModifier.new cs).is_empty = cs.isEmpty := by
  cases cs with
  | nil => rfl
  | cons c rest =>
    have ht : touched (applyCalls StateModifier.new (c :: rest)) = true := by
      show touched (applyCalls (applyCall StateModifier.new c) rest) = true
      exact touched_applyCalls rest _ (touched_applyCall _ c)
    have hne := touched_ne_default _ ht
    simp [StateModifier.is_empty, hne]

/-- The wire keys a field can appear under in a serialized body. -/
def keysFor : FieldName → List String
  | .switchedOn => ["on"]
  | .bri => ["bri", "bri_inc"]
  | .hue => ["hue", "hue_inc"]
  | .sat => ["sat", "sat_inc"]
  | .xy => ["xy", "xy_inc"]

/-- Whether a given field of the modifier has been set. -/
def fieldTouched (m : StateModifier) : FieldName → Bool
  | .switchedOn => m.switchedOn.isSome
  | .bri => m.brightness.isSome
  | .hue => m.hue.isSome
  | .sat => m.saturation.isSome
  | .xy => m.colorSpaceCoordinates.isSome

/-- How many entries of a serialized body belong to a given field. -/
def keyCount (f : FieldName) (entries : List (String × Json)) : Nat :=
  entries.countP (fun e => decide (e.1 ∈ keysFor f))

theorem keyCount_append (f : FieldName) (l1 l2 : List (String × Json)) :
    keyCount f (l1 ++ l2) = keyCount f l1 + keyCount f l2 :=
  List.countP_append _ _ _

theorem keyCount_serializeOn (f : FieldName) (o : Option Bool) :
    keyCount f (serializeOn o) =
      if f = FieldName.switchedOn then (if o.isSome then 1 else 0)
      else 0 := by
  cases o <;> cases f <;>
    simp +decide [serializeOn, keyCount, keysFor, List.countP_cons]

theorem keyCount_bri (f : FieldName) (o : Option (ModifierType × Int)) :
    keyCount f (serializeField "bri" "bri_inc" o) =
      if f = FieldName.bri then (if o.isSome then 1 else 0) else 0 := by
  rcases o with _ | ⟨t, v⟩
  · cases f <;> simp [serializeField, keyCount, keysFor]
  · cases t <;> cases f <;>
      simp +decide [serializeField, keyCount, keysFor, List.countP_cons]

theorem keyCount_hue (f : FieldName) (o : Option (ModifierType × Int)) :
    keyCount f (serializeField "hue" "hue_inc" o) =
      if f = FieldName.hue then (if o.isSome then 1 else 0) else 0 := by
  rcases o with _ | ⟨t, v⟩
  · cases f <;> simp [serializeField, keyCount, keysFor]
  · cases t <;> cases f <;>
      simp +decide [serializeField, keyCount, keysFor, List.countP_cons]

theorem keyCount_sat (f : FieldName) (o : Option (ModifierType × Int)) :
    keyCount f (serializeField "sat" "sat_inc" o) =
      if f = FieldName.sat then (if o.isSome then 1 else 0) else 0 := by
  rcases o with _ | ⟨t, v⟩
  · cases f <;> simp [serializeField, keyCount, keysFor]
  · cases t <;> cases f <;>
      simp +decide [serializeField, keyCount, keysFor, List.countP_cons]

theorem keyCount_xy (f : FieldName)
    (o : Option (CoordinateModifierType × Int × Int)) :
    keyCount f (serializeCoords o) =
      if f = FieldName.xy then (if o.isSome then 1 else 0) else 0 := by
  rcases o with _ | ⟨t, x, y⟩
  · cases f <;> simp [serializeCoords, keyCount, keysFor]
  · cases t <;> cases f <;>
      simp +decide [serializeCoords, keyCount, keysFor, List.countP_cons]

/-- C7: setting the same field twice keeps only the second operation
(last write wins); builder calls on distinct fields commute, so the
result is unaffected by call order; and a serialized body holds exactly
one key for every touched field and none for an untouched field. -/
theorem c7_modifier_field_algebra :
    (∀ (m : StateModifier) (c1 c2 : BuilderCall), c1.target = c2.target →
      applyCall (applyCall m c1) c2 = applyCall m c2)
    ∧ (∀ (m : StateModifier) (c1 c2 : BuilderCall), c1.target ≠ c2.target →
      applyCall (applyCall m c1) c2 = applyCall (applyCall m c2) c1)
    ∧ (∀ (m : StateModifier) (f : FieldName),
      keyCount f m.serialize = if fieldTouched m f then 1 else 0) := by
  refine ⟨?_, ?_, ?_⟩
  · intro m c1 c2 h
    cases c1 <;> cases c2 <;> simp_all [BuilderCall.target, applyCall]
  · intro m c1 c2 h
    cases c1 <;> cases c2 <;> simp_all [BuilderCall.target, applyCall]
  · intro m f
    obtain ⟨o, b, hu, s, xy⟩ := m
    simp only [StateModifier.serialize, keyCount_append, keyCount_serializeOn,
      keyCount_bri, keyCount_hue, keyCount_sat, keyCount_xy]
    cases f <;> simp [fieldTouched]

/-- C7 witness: concrete last-write-wins, commutation and key-count
instances. -/
theorem c7_modifier_field_algebra_witness :
    applyCall (applyCall StateModifier.new (BuilderCall.brightness .override 10))
        (BuilderCall.brightness .override 20) =
      applyCall StateModifier.new (BuilderCall.brightness .override 20)
    ∧ applyCall (applyCall StateModifier.new (BuilderCall.brightness .override 10))
        (BuilderCall.hue .override 5) =
      applyCall (applyCall StateModifier.new (BuilderCall.hue .override 5))
        (BuilderCall.brightness .override 10)
    ∧ keyCount FieldName.bri
        (StateModifier.serialize
          (applyCall StateModifier.new (BuilderCall.brightness .override 20))) = 1 :=
  ⟨c7_modifier_field_algebra.1 _ _ _ rfl,
   c7_modifier_field_algebra.2.1 _ _ _ (by decide),
   c7_modifier_field_algebra.2.2 _ FieldName.bri⟩

/-- The entries of a serialized body that belong to the paired
color-space coordinate field. -/
def xyEntries (entries : List (String × Json)) : List (String × Json) :=
  entries.filter (fun e => decide (e.1 ∈ keysFor FieldName.xy))

theorem xyEntries_append (l1 l2 : List (String × Json)) :
    xyEntries (l1 ++ l2) = xyEntries l1 ++ xyEntries l2 :=
  List.filter_append _ _

theorem xyEntries_serializeOn (o : Option Bool) :
    xyEntries (serializeOn o) = [] := by
  cases o <;> simp +decide [serializeOn, xyEntries, keysFor]

theorem xyEntries_bri (o : Option (ModifierType × Int)) :
    xyEntries (serializeField "bri" "bri_inc" o) = [] := by
  rcases o with _ | ⟨t, v⟩
  · rfl
  · cases t <;> simp +decide [serializeField, xyEntries, keysFor]

theorem xyEntries_hue (o : Option (ModifierType × Int)) :
    xyEntries (serializeField "hue" "hue_inc" o) = [] := by
  rcases o with _ | ⟨t, v⟩
  · rfl
  · cases t <;> simp +decide [serializeField, xyEntries, keysFor]

theorem xyEntries_sat (o : Option (ModifierType × Int)) :
    xyEntries (serializeField "sat" "sat_inc" o) = [] := by
  rcases o with _ | ⟨t, v⟩
  · rfl
  · cases t <;> simp +decide [serializeField, xyEntries, keysFor]

/-- C8: after setting the paired coordinates with IncrementDecrement of
dx and dy, the compiled body carries the pair as exactly one atomic
entry holding both components together, encoding plus dx for the first
coordinate and minus dy for the second; every coordinate entry of any
serialized body carries both components, never one alone. -/
theorem c8_increment_decrement_pair (m : StateModifier) (dx dy : Int) :
    xyEntries
        (StateModifier.serialize
          (applyCall m (BuilderCall.coordinates .incrementDecrement dx dy))) =
      [("xy_inc", Json.arr [Json.num dx, Json.num (-dy)])]
    ∧ ∀ e ∈ StateModifier.serialize
        (applyCall m (BuilderCall.coordinates .incrementDecrement dx dy)),
        e.1 ∈ keysFor FieldName.xy →
          ∃ a b : Int, e.2 = Json.arr [Json.num a, Json.num b] := by
  obtain ⟨o, b, hu, s, xy⟩ := m
  have hser : xyEntries
      (StateModifier.serialize
        (applyCall ⟨o, b, hu, s, xy⟩
          (BuilderCall.coordinates .incrementDecrement dx dy))) =
      [("xy_inc", Json.arr [Json.num dx, Json.num (-dy)])] := by
    simp only [applyCall, StateModifier.serialize, xyEntries_append,
      xyEntries_serializeOn, xyEntries_bri, xyEntries_hue, xyEntries_sat]
    simp +decide [serializeCoords, xyEntries, keysFor]
  refine ⟨hser, ?_⟩
  intro e he hk
  have hmem : e ∈ xyEntries
      (StateModifier.serialize
        (applyCall ⟨o, b, hu, s, xy⟩
          (BuilderCall.coordinates .incrementDecrement dx dy))) :=
    List.mem_filter.mpr ⟨he, by simpa using hk⟩
  rw [hser] at hmem
  simp only [List.mem_singleton] at hmem
  subst hmem
  exact ⟨dx, -dy, rfl⟩

/-- C8 witness: a concrete IncrementDecrement of 3 and 4 compiles to the
single pair entry with components 3 and minus 4, and that entry carries
both components. -/
theorem c8_increment_decrement_pair_witness :
    xyEntries
        (StateModifier.serialize
          (applyCall StateModifier.new
            (BuilderCall.coordinates .incrementDecrement 3 4))) =
      [("xy_inc", Json.arr [Json.num 3, Json.num (-4)])]
    ∧ ∃ a b : Int,
        (("xy_inc", Json.arr [Json.num 3, Json.num (-4)]) : String × Json).2 =
          Json.arr [Json.num a, Json.num b] :=
  ⟨(c8_increment_decrement_pair StateModifier.new 3 4).1,
   (c8_increment_decrement_pair StateModifier.new 3 4).2
     ("xy_inc", Json.arr [Json.num 3, Json.num (-4)])
     (by rw [show StateModifier.serialize
           (applyCall StateModifier.new
             (BuilderCall.coordinates .incrementDecrement 3 4)) =
           [("xy_inc", Json.arr [Json.num 3, Json.num (-4)])] from rfl]
         exact List.mem_singleton.mpr rfl)
     (by decide)⟩

/-- Status of the last scan (LastScan, lib.rs lines 245-253).  The
noScan constructor models LastScan::None; the dateTime constructor
carries the token the external chrono parser produced. -/
inductive LastScan where
  | dateTime (d : Nat) : LastScan
  | active : LastScan
  | noScan : LastScan
deriving DecidableEq

/-- A resource returned from a scan (ScanResource, lib.rs
lines 270-276). -/
structure ScanResource where
  id : String
  name : String
deriving DecidableEq

/-- New resources scanned by the bridge (Scan, lib.rs lines 179-185). -/
structure Scan where
  last_scan : LastScan
  resources : List ScanResource
deriving DecidableEq

/-- The deserialization errors Scan's visitor can produce: a custom
error wrapping a failed lastscan value (lib.rs line 220), a serde
invalid-type error from a non-string resource name or a non-object
input, and the missing-field error for lastscan (lib.rs line 231). -/
inductive DeError where
  | custom : DeError
  | invalidType : DeError
  | missingField : DeError
deriving DecidableEq

/-- Deserializing an Option of LastScan from a raw JSON value (lib.rs
lines 219-221 together with lines 255-267): null gives none; a string is
matched against active and none and otherwise handed to the chrono
parser, modelled by the pDT argument; anything else is a type error
wrapped as a custom error. -/
def decodeLastScanOpt (pDT : String → Option Nat) (j : Json) :
    Except DeError (Option LastScan) :=
  match j with
  | .null => .ok none
  | .str s =>
    if s = "active" then .ok (some .active)
    else if s = "none" then .ok (some .noScan)
    else
      match pDT s with
      | some d => .ok (some (.dateTime d))
      | none => .error .custom
  | _ => .error .custom

/-- The visit_map loop of Scan's visitor (lib.rs lines 213-236): a
lastscan key replaces the pending last_scan value; every other key
becomes a ScanResource from the key and its string value, pushed in
encounter order; after the loop a missing last_scan is a missing-field
error. -/
def scanVisit (pDT : String → Option Nat) :
    List (String × Json) → Option LastScan → List ScanResource →
      Except DeError Scan
  | [], ols, acc =>
    match ols with
    | some ls => .ok ⟨ls, acc⟩
    | none => .error .missingField
  | (k, v) :: rest, ols, acc =>
    if k = "lastscan" then
      match decodeLastScanOpt pDT v with
      | .error e => .error e
      | .ok ols2 => scanVisit pDT rest ols2 acc
    else
      match v with
      | .str s => scanVisit pDT rest ols (acc ++ [⟨k, s⟩])
      | _ => .error .invalidType

/-- Deserializing a Scan (lib.rs lines 187-242): visit the entries of the
JSON object; any other input shape is a type error. -/
def deserializeScan (pDT : String → Option Nat) (j : Json) :
    Except DeError Scan :=
  match j with
  | .obj fields => scanVisit pDT fields none []
  | _ => .error .invalidType

/-- Whether an object entry is the lastscan field. -/
def isLastScanKey (p : String × Json) : Bool := decide (p.1 = "lastscan")

/-- The string content of a JSON value, empty for non-strings. -/
def Json.strOf : Json → String
  | .str s => s
  | _ => ""

/-- The ScanResources an entry list produces: one per non-lastscan
entry, in encounter order. -/
def scanResources (fields : List (String × Json)) : List ScanResource :=
  (fields.filter (fun p => !isLastScanKey p)).map
    (fun p => ⟨p.1, Json.strOf p.2⟩)

theorem scanVisit_spec (pDT : String → Option Nat) :
    ∀ (fields : List (String × Json)) (ols : Option LastScan)
      (acc : List ScanResource),
      (fields.filter isLastScanKey).length ≤ 1 →
      (∀ p ∈ fields, isLastScanKey p = false → ∃ s, p.2 = Json.str s) →
      scanVisit pDT fields ols acc =
        (match fields.find? isLastScanKey with
         | none =>
           (match ols with
            | some ls => Except.ok ⟨ls, acc ++ scanResources fields⟩
            | none => Except.error DeError.missingField)
         | some p =>
           (match decodeLastScanOpt pDT p.2 with
            | .error e => Except.error e
            | .ok none => Except.error DeError.missingField
            | .ok (some ls) =>
              Except.ok ⟨ls, acc ++ scanResources fields⟩)) := by
  intro fields
  induction fields with
  | nil =>
    intro ols acc h1 h2
    cases ols <;> simp [scanVisit, scanResources]
  | cons kv rest ih =>
    obtain ⟨k, v⟩ := kv
    intro ols acc h1 h2
    by_cases hk : k = "lastscan"
    · subst hk
      have hfil : rest.filter isLastScanKey = [] := by
        simp [List.filter_cons, isLastScanKey] at h1
        exact List.filter_eq_nil_iff.mpr (by
          intro x hx
          obtain ⟨a, b⟩ := x
          simpa [isLastScanKey] using h1 a b hx)
      have hnone : rest.find? isLastScanKey = none :=
        List.find?_eq_none.mpr (by
          intro x hx
          have := List.filter_eq_nil_iff.mp hfil x hx
          simpa using this)
      have hstep : scanVisit pDT (("lastscan", v) :: rest) ols acc =
          (match decodeLastScanOpt pDT v with
           | .error e => Except.error e
           | .ok ols2 => scanVisit pDT rest ols2 acc) := by
        simp [scanVisit]
      rw [hstep]
      have hsr : scanResources (("lastscan", v) :: rest) =
          scanResources rest := by
        simp [scanResources, isLastScanKey]
      cases hd : decodeLastScanOpt pDT v with
      | error e => simp [List.find?_cons, isLastScanKey, hd]
      | ok ols2 =>
        change scanVisit pDT rest ols2 acc = _
        rw [ih ols2 acc (by simp [hfil])
          (fun p hp h => h2 p (List.mem_cons_of_mem _ hp) h)]
        rw [hnone]
        cases ols2 <;> simp [List.find?_cons, isLastScanKey, hd, hsr]
    · have hkb : isLastScanKey (k, v) = false := by
        simp [isLastScanKey, hk]
      obtain ⟨s, hs⟩ := h2 (k, v) (List.mem_cons_self _ _) hkb
      subst hs
      have h1r : (rest.filter isLastScanKey).length ≤ 1 := by
        simpa [List.filter_cons, hkb] using h1
      have h2r := fun p hp h => h2 p (List.mem_cons_of_mem _ hp) h
      have hstep : scanVisit pDT ((k, Json.str s) :: rest) ols acc =
          scanVisit pDT rest ols (acc ++ [⟨k, s⟩]) := by
        simp [scanVisit, hk]
      rw [hstep, ih ols (acc ++ [ScanResource.mk k s]) h1r h2r]
      have hsr : scanResources ((k, Json.str s) :: rest) =
          ⟨k, s⟩ :: scanResources rest := by
        simp [scanResources, hkb, Json.strOf]
      have hfind : List.find? isLastScanKey ((k, Json.str s) :: rest) =
          List.find? isLastScanKey rest := by
        simp [List.find?_cons, hkb]
      rw [hfind, hsr]
      cases hf : rest.find? isLastScanKey with
      | none => cases ols <;> simp
      | some p =>
        cases hd : decodeLastScanOpt pDT p.2 with
        | error e => simp
        | ok o2 => cases o2 <;> simp

/-- C9 counterexample: an object whose lastscan value is valid still
fails to deserialize when another entry's value is not a string, so
success is not equivalent to the presence of a valid lastscan value
alone. -/
theorem c9_scan_counterexample :
    decodeLastScanOpt (fun _ => none) (Json.str "active") =
      Except.ok (some LastScan.active)
    ∧ deserializeScan (fun _ => none)
        (Json.obj [("lastscan", Json.str "active"), ("x", Json.num 5)]) =
      Except.error DeError.invalidType :=
  ⟨rfl, rfl⟩

/-- C9 (amended): over objects whose non-lastscan values are all strings
(with at most one lastscan entry), deserializing a Scan succeeds exactly
when a lastscan key is present with a valid non-null value; every other
entry becomes a ScanResource from its key and string value, in encounter
order; a missing (or null) lastscan yields the missing-field error, and
an invalid lastscan value propagates its error. -/
theorem c9_scan_deserialization (pDT : String → Option Nat)
    (fields : List (String × Json))
    (h1 : (fields.filter isLastScanKey).length ≤ 1)
    (h2 : ∀ p ∈ fields, isLastScanKey p = false → ∃ s, p.2 = Json.str s) :
    deserializeScan pDT (Json.obj fields) =
      (match fields.find? isLastScanKey with
       | none => Except.error DeError.missingField
       | some p =>
         (match decodeLastScanOpt pDT p.2 with
          | .error e => Except.error e
          | .ok none => Except.error DeError.missingField
          | .ok (some ls) => Except.ok ⟨ls, scanResources fields⟩)) := by
  have h := scanVisit_spec pDT fields none [] h1 h2
  simp only [deserializeScan]
  rw [h]
  cases hf : fields.find? isLastScanKey with
  | none => simp
  | some p =>
    cases hd : decodeLastScanOpt pDT p.2 with
    | error e => simp
    | ok o2 => cases o2 <;> simp

/-- C9 witness: a concrete object with a valid lastscan and one resource
entry deserializes to the expected Scan. -/
theorem c9_scan_deserialization_witness :
    deserializeScan (fun _ => none)
        (Json.obj [("lastscan", Json.str "active"),
          ("r1", Json.str "lamp")]) =
      Except.ok ⟨LastScan.active, [⟨"r1", "lamp"⟩]⟩ := by
  have h := c9_scan_deserialization (fun _ => none)
    [("lastscan", Json.str "active"), ("r1", Json.str "lamp")]
    (by decide)
    (by
      intro p hp hne
      simp only [List.mem_cons, List.mem_singleton] at hp
      rcases hp with hp | hp | hp
      · rw [hp] at hne
        simp [isLastScanKey] at hne
      · exact ⟨"lamp", by rw [hp]⟩
      · cases hp)
  exact h.trans rfl

end Huelib
